import Mathlib

/-!
Verification of the people-research repository (legislator research pipeline).

Shallow embedding of the Python sources:
  scripts/enhanced_legislator_researcher.py  (extraction + retry loop)
  scripts/legislator_researcher.py           (identical extraction + retry loop)
  scripts/legislator_discovery.py            (role filter, staleness check)
  scripts/consolidate_results.py             (cost estimate, donor tally, sort)

Strings are modelled as lists of characters.  The strict JSON acceptance
test of json.loads is implemented as a fuel-indexed recursive-descent
recogniser over the JSON grammar (objects, arrays, strings with escapes,
numbers, true/false/null and the NaN/Infinity constants accepted by the
default json.loads).  The three regular expressions of
_extract_json_from_response are modelled by direct scanning functions that
follow the re.findall semantics of each pattern (leftmost scan,
non-overlapping continuation, greedy and lazy repetition as written).
-/

namespace PeopleResearch

/-- Characters of a string literal, used to write concrete inputs. -/
def chars (s : String) : List Char := s.data

/-- ASCII fragment of the Python regex class backslash-s and of str.strip
whitespace: space, tab, newline, carriage return, vertical tab, form feed. -/
def isPyWs (c : Char) : Bool :=
  c = ' ' || c = '\t' || c = '\n' || c = '\r' || c = '\x0b' || c = '\x0c'

/-- Whitespace accepted by json.loads between tokens: space, tab, newline,
carriage return (the WHITESPACE pattern of the json module). -/
def isJsonWs (c : Char) : Bool :=
  c = ' ' || c = '\t' || c = '\n' || c = '\r'

/-- Python str.strip with no argument: drop leading and trailing whitespace. -/
def pyStrip (s : List Char) : List Char :=
  ((s.dropWhile isPyWs).reverse.dropWhile isPyWs).reverse

def skipWs (s : List Char) : List Char := s.dropWhile isJsonWs

def isHexChar (c : Char) : Bool :=
  c.isDigit || ('a' ≤ c && c ≤ 'f') || ('A' ≤ c && c ≤ 'F')

/-- Consume the given literal characters from the front, or fail. -/
def dropLit : List Char → List Char → Option (List Char)
  | [], s => some s
  | _ :: _, [] => Option.none
  | c :: cs, d :: ds => if c = d then dropLit cs ds else Option.none

/-- Recogniser for the remainder of a JSON string, entered just after the
opening double quote.  Returns the input after the closing quote.  Unescaped
control characters below 0x20 are rejected (json.loads default strict mode);
the escapes are the eight single-character ones plus backslash-u with four
hex digits. -/
def jsonStringRest : List Char → Option (List Char)
  | [] => Option.none
  | c :: rest =>
    if c = '"' then some rest
    else if c = '\\' then
      match rest with
      | [] => Option.none
      | e :: rest2 =>
        if e = '"' || e = '\\' || e = '/' || e = 'b' || e = 'f' || e = 'n'
            || e = 'r' || e = 't' then
          jsonStringRest rest2
        else if e = 'u' then
          match rest2 with
          | h1 :: h2 :: h3 :: h4 :: rest3 =>
            if isHexChar h1 && isHexChar h2 && isHexChar h3 && isHexChar h4 then
              jsonStringRest rest3
            else Option.none
          | _ => Option.none
        else Option.none
    else if c.toNat < 32 then Option.none
    else jsonStringRest rest

/-- Integer part of a JSON number: 0, or a nonzero digit followed by digits
(the first alternative of the NUMBER_RE regex of the json module). -/
def jsonIntPart : List Char → Option (List Char)
  | [] => Option.none
  | c :: rest =>
    if c = '0' then some rest
    else if c.isDigit then some (rest.dropWhile Char.isDigit)
    else Option.none

/-- Optional fraction part: a dot followed by one or more digits; if the dot
is not followed by a digit the part does not match and nothing is consumed. -/
def jsonFracOpt (s : List Char) : List Char :=
  match s with
  | '.' :: c :: rest => if c.isDigit then rest.dropWhile Char.isDigit else s
  | _ => s

/-- Optional exponent part: e or E, an optional sign, one or more digits;
if incomplete, nothing is consumed. -/
def jsonExpOpt (s : List Char) : List Char :=
  match s with
  | c :: rest =>
    if c = 'e' || c = 'E' then
      match rest with
      | d :: rest2 =>
        if d.isDigit then rest2.dropWhile Char.isDigit
        else if d = '+' || d = '-' then
          match rest2 with
          | e2 :: rest3 => if e2.isDigit then rest3.dropWhile Char.isDigit else s
          | [] => s
        else s
      | [] => s
    else s
  | [] => s

/-- Dispatch tag for the fuel-indexed JSON recogniser: a value, the inside of
an object after the opening brace, the member list of an object, the inside
of an array after the opening bracket, the item list of an array. -/
inductive JMode where
  | val
  | objBody
  | members
  | arrBody
  | items

/-- Fuel-indexed recogniser for the json.loads grammar.  In mode val the
input starts directly at a value (whitespace already skipped); each
recursive call strictly consumes input, so fuel = length of the input plus
two never runs out on accepted inputs. -/
def jsonRun : Nat → JMode → List Char → Option (List Char)
  | 0, _, _ => Option.none
  | Nat.succ f, JMode.val, s =>
    match s with
    | [] => Option.none
    | c :: rest =>
      if c = '"' then jsonStringRest rest
      else if c = '{' then jsonRun f JMode.objBody rest
      else if c = '[' then jsonRun f JMode.arrBody rest
      else if c = 'n' then dropLit (chars ("ull")) rest
      else if c = 't' then dropLit (chars ("rue")) rest
      else if c = 'f' then dropLit (chars ("alse")) rest
      else if c = 'N' then dropLit (chars ("aN")) rest
      else if c = 'I' then dropLit (chars ("nfinity")) rest
      else if c = '-' then
        match jsonIntPart rest with
        | some r => some (jsonExpOpt (jsonFracOpt r))
        | Option.none => dropLit (chars ("Infinity")) rest
      else if c.isDigit then
        match jsonIntPart s with
        | some r => some (jsonExpOpt (jsonFracOpt r))
        | Option.none => Option.none
      else Option.none
  | Nat.succ f, JMode.objBody, s =>
    match skipWs s with
    | '}' :: r => some r
    | t => jsonRun f JMode.members t
  | Nat.succ f, JMode.members, s =>
    match s with
    | '"' :: rest =>
      match jsonStringRest rest with
      | some afterKey =>
        match skipWs afterKey with
        | ':' :: afterColon =>
          match jsonRun f JMode.val (skipWs afterColon) with
          | some afterVal =>
            match skipWs afterVal with
            | ',' :: afterComma => jsonRun f JMode.members (skipWs afterComma)
            | '}' :: r => some r
            | _ => Option.none
          | Option.none => Option.none
        | _ => Option.none
      | Option.none => Option.none
    | _ => Option.none
  | Nat.succ f, JMode.arrBody, s =>
    match skipWs s with
    | ']' :: r => some r
    | t => jsonRun f JMode.items t
  | Nat.succ f, JMode.items, s =>
    match jsonRun f JMode.val s with
    | some afterVal =>
      match skipWs afterVal with
      | ',' :: afterComma => jsonRun f JMode.items (skipWs afterComma)
      | ']' :: r => some r
      | _ => Option.none
    | Option.none => Option.none

/-- Model of a successful strict json.loads call on the whole input: one
value surrounded by optional whitespace. -/
def json_loads_ok (s : List Char) : Bool :=
  match jsonRun (s.length + 2) JMode.val (skipWs s) with
  | some rest => (skipWs rest).isEmpty
  | Option.none => false

/-- Model of re.findall with the first pattern of _extract_json_from_response,
an opening brace, a greedy any-character repetition and a closing brace.  The
greedy repetition makes the single match run from the first opening brace to
the last closing brace of the text when the latter comes after the former;
the remainder of the text holds no further closing brace, so at most one
match is produced. -/
def findall_brace (s : List Char) : List (List Char) :=
  match s.findIdx? (fun c => c = '{'), s.reverse.findIdx? (fun c => c = '}') with
  | some i, some rj =>
    let j := s.length - 1 - rj
    if i < j then [(s.drop i).take (j - i + 1)] else []
  | _, _ => []

/-- ASCII lower casing, for the re.IGNORECASE flag. -/
def lowerAscii (c : Char) : Char :=
  if 'A' ≤ c && c ≤ 'Z' then Char.ofNat (c.toNat + 32) else c

/-- Case-insensitive literal test at the front of the text; the pattern is
given in lower case. -/
def startsWithCI : List Char → List Char → Bool
  | [], _ => true
  | _ :: _, [] => false
  | p :: ps, c :: cs => (lowerAscii c = p) && startsWithCI ps cs

/-- After the closing brace of a fenced candidate the fence patterns require
optional whitespace and three backticks. -/
def closeFenceOk (s : List Char) : Bool :=
  startsWithCI (chars ("```")) (s.dropWhile isPyWs)

def afterCloseFence (s : List Char) : List Char :=
  (s.dropWhile isPyWs).drop 3

/-- Lazy group of the fence patterns: the shortest extension of the
accumulated group that ends at a closing brace followed by optional
whitespace and three backticks.  The accumulator is kept reversed. -/
def lazyGroup : List Char → List Char → Option (List Char × List Char)
  | _, [] => Option.none
  | acc, c :: rest =>
    if c = '}' && closeFenceOk rest then
      some ((c :: acc).reverse, afterCloseFence rest)
    else lazyGroup (c :: acc) rest

/-- Attempt to match a fence pattern at the current position: the literal
fence opener (case-insensitive), optional whitespace, an opening brace, the
lazy body up to a closing brace, optional whitespace, three backticks.
Returns the captured group and the text after the whole match. -/
def matchFenceAt (lit : List Char) (s : List Char) : Option (List Char × List Char) :=
  if startsWithCI lit s then
    match (s.drop lit.length).dropWhile isPyWs with
    | c :: rest => if c = '{' then lazyGroup [c] rest else Option.none
    | [] => Option.none
  else Option.none

/-- re.findall scan for a fence pattern: try a match at every position from
the left; on success emit the group and continue after the match, otherwise
advance one character. -/
def findall_fence (lit : List Char) : Nat → List Char → List (List Char)
  | 0, _ => []
  | _, [] => []
  | Nat.succ f, s =>
    match matchFenceAt lit s with
    | some (g, r) => g :: findall_fence lit f r
    | Option.none => findall_fence lit f s.tail

/-- Matches of the second pattern of _extract_json_from_response: a code
fence labeled json. -/
def findall_json_fence (s : List Char) : List (List Char) :=
  findall_fence (chars ("```json")) (s.length + 1) s

/-- Matches of the third pattern of _extract_json_from_response: any code
fence. -/
def findall_any_fence (s : List Char) : List (List Char) :=
  findall_fence (chars ("```")) (s.length + 1) s

/-- Inner loop of _extract_json_from_response over the matches of one
pattern: strip each match, keep the first one that json.loads accepts. -/
def findValidCandidate : List (List Char) → Option (List Char)
  | [] => Option.none
  | m :: rest =>
    let j := pyStrip m
    if json_loads_ok j then some j else findValidCandidate rest

/-- EnhancedLegislatorResearcher._extract_json_from_response and the
character-identical LegislatorResearcher._extract_json_from_response: the
patterns are tried in the order they are listed in the source, namely the
brace pattern first, then the json-labeled fence, then the generic fence. -/
def extract_json_from_response (s : List Char) : Option (List Char) :=
  match findValidCandidate (findall_brace s) with
  | some r => some r
  | Option.none =>
    match findValidCandidate (findall_json_fence s) with
    | some r => some r
    | Option.none => findValidCandidate (findall_any_fence s)

/-- Modelled from the spec wording of step 4 of the extraction algorithm:
candidates in order of preference (a) json-labeled fence, (b) any fence,
(c) largest brace-delimited span; the first candidate that parses is
accepted. -/
def extract_spec_order (s : List Char) : Option (List Char) :=
  findValidCandidate (findall_json_fence s ++ findall_any_fence s ++ findall_brace s)

/-- The extraction order that the code actually implements, written in the
style of the spec sentence: brace span first, then json-labeled fence, then
any fence. -/
def extract_code_order (s : List Char) : Option (List Char) :=
  findValidCandidate (findall_brace s ++ findall_json_fence s ++ findall_any_fence s)

/-- The example response of the spec: a json fence holding a small object,
followed by trailing prose. -/
def exampleResponse : String := "```json\n\x7b\"a\":1\x7d\n```\nHere is the requested data."

/-- Counterexample input for the extraction order: a JSON object whose
string member spells out a json fence holding the empty object. -/
def orderCounterexample : String := "\x7b\"note\": \"```json \x7b\x7d ```\", \"a\": 1\x7d"

example : json_loads_ok (chars ("\x7b\"a\":1\x7d")) = true := by decide

example : extract_json_from_response (chars exampleResponse)
    = some (chars ("\x7b\"a\":1\x7d")) := by decide

example : extract_json_from_response (chars orderCounterexample)
    = some (chars orderCounterexample) := by decide

example : extract_spec_order (chars orderCounterexample)
    = some (chars ("\x7b\x7d")) := by decide

/-!
Dynamic values.  The research scripts receive the legislator record as a
Python dictionary parsed from YAML; its fields can hold values of any shape.
PyVal models the value universe that matters here, and the helpers model the
dynamic operations the scripts perform on it, raising (as Except errors)
exactly where Python would raise AttributeError, TypeError, IndexError or
KeyError.
-/

inductive PyVal where
  | str (s : String)
  | int (n : Int)
  | list (xs : List PyVal)
  | dict (kvs : List (String × PyVal))
  | none

/-- Python truthiness for the modelled values. -/
def pyTruthy : PyVal → Bool
  | PyVal.str s => !s.isEmpty
  | PyVal.int n => n != 0
  | PyVal.list xs => !xs.isEmpty
  | PyVal.dict kvs => !kvs.isEmpty
  | PyVal.none => false

/-- dict.get with a default, on a value already known to be a dictionary. -/
def dictGet (kvs : List (String × PyVal)) (k : String) (dflt : PyVal) : PyVal :=
  match kvs.find? (fun p => p.1 = k) with
  | some p => p.2
  | Option.none => dflt

/-- Exceptions the modelled code can raise.  AttributeError, TypeError,
IndexError and KeyError come from dynamic operations on values of the wrong
shape; ValueError and the client error carry the message used by the script. -/
inductive PyExn where
  | attrError
  | typeError
  | lookupError
  | valueError (msg : String)
  | clientError (msg : String)

/-- str(e) for the modelled exceptions.  For the dynamic-typing errors the
concrete Python message text is not modelled; only the messages the script
itself constructs are. -/
def exnMsg : PyExn → String
  | PyExn.attrError => "AttributeError"
  | PyExn.typeError => "TypeError"
  | PyExn.lookupError => "LookupError"
  | PyExn.valueError m => m
  | PyExn.clientError m => m

/-- value.get(key, default): raises AttributeError unless the value is a
dictionary. -/
def pyGet (v : PyVal) (k : String) (dflt : PyVal) : Except PyExn PyVal :=
  match v with
  | PyVal.dict kvs => Except.ok (dictGet kvs k dflt)
  | _ => Except.error PyExn.attrError

/-- value[0]: first element of a list, one-character string of a string,
error otherwise (TypeError on non-sequences, IndexError on empty sequences,
KeyError on dictionaries without an integer key). -/
def pyIndex0 : PyVal → Except PyExn PyVal
  | PyVal.list (x :: _) => Except.ok x
  | PyVal.list [] => Except.error PyExn.lookupError
  | PyVal.str s =>
    match s.data with
    | c :: _ => Except.ok (PyVal.str c.toString)
    | [] => Except.error PyExn.lookupError
  | PyVal.dict _ => Except.error PyExn.lookupError
  | _ => Except.error PyExn.typeError

/-- Iterating a value in a for statement: lists yield their elements,
strings their characters, dictionaries their keys; integers and None raise
TypeError. -/
def pyIter : PyVal → Except PyExn (List PyVal)
  | PyVal.list xs => Except.ok xs
  | PyVal.str s => Except.ok (s.data.map (fun c => PyVal.str c.toString))
  | PyVal.dict kvs => Except.ok (kvs.map (fun p => PyVal.str p.1))
  | _ => Except.error PyExn.typeError

def pyValIsStr (v : PyVal) (s : String) : Bool :=
  match v with
  | PyVal.str t => t = s
  | _ => false

/-- The data derived from the legislator record by create_research_prompt
(the surrounding prompt text is fixed template wording and is not part of
any claim; the derivation and its raising behaviour are what is modelled). -/
structure PromptData where
  name : PyVal
  party : PyVal
  state : PyVal
  district : PyVal
  chamber : PyVal

/-- The loop of create_research_prompt over the roles: the first role whose
type is one of upper, lower, legislature and whose end_date is falsy; each
role is asked for its type with a .get call, which raises on non-dictionary
entries. -/
def promptFindRole : List PyVal → Except PyExn (Option (List (String × PyVal)))
  | [] => Except.ok Option.none
  | r :: rest =>
    match r with
    | PyVal.dict kvs =>
      let ty := dictGet kvs "type" PyVal.none
      let ed := dictGet kvs "end_date" PyVal.none
      if (pyValIsStr ty "upper" || pyValIsStr ty "lower" || pyValIsStr ty "legislature")
          && !pyTruthy ed then
        Except.ok (some kvs)
      else promptFindRole rest
    | _ => Except.error PyExn.attrError

/-- LegislatorResearcher.create_research_prompt and the identically derived
EnhancedLegislatorResearcher.create_enhanced_research_prompt: name, party,
state, district and chamber are read from the record with dynamic lookups. -/
def create_research_prompt (leg : List (String × PyVal)) : Except PyExn PromptData := do
  let name := dictGet leg "name" (PyVal.str ("Unknown"))
  let party ←
    if pyTruthy (dictGet leg "party" PyVal.none) then do
      let first ← pyIndex0 (dictGet leg "party" (PyVal.list [PyVal.dict []]))
      pyGet first "name" (PyVal.str ("Unknown"))
    else pure (PyVal.str ("Unknown"))
  let roles := dictGet leg "roles" (PyVal.list [])
  let rolesList ← pyIter roles
  let currentRole ← promptFindRole rolesList
  match currentRole with
  | some kvs =>
    pure { name := name, party := party,
           state := dictGet kvs "jurisdiction" (PyVal.str ("Unknown")),
           district := dictGet kvs "district" (PyVal.str ("")),
           chamber := dictGet kvs "type" (PyVal.str ("legislature")) }
  | Option.none =>
    pure { name := name, party := party,
           state := PyVal.str ("Unknown"),
           district := PyVal.str (""),
           chamber := PyVal.str ("legislature") }

/-- The donors block of an error response record. -/
structure DonorsBlock where
  top_companies : List PyVal
  top_industries : List PyVal
  ideological_donors : List PyVal
  individual_donors : List PyVal
  data_source : String
  source_url : String

/-- The dictionary built by _create_error_response.  The timestamp fields
(last_updated, processed_date) and the run identifier are read from the
clock and the process environment and are not modelled; meta_error is the
error flag of processing_metadata. -/
structure ErrorRecord where
  legislator_id : PyVal
  name : PyVal
  state : PyVal
  error : String
  issues : List PyVal
  donors : DonorsBlock
  sources : List PyVal
  meta_error : Bool

def emptyDonors : DonorsBlock :=
  { top_companies := [], top_industries := [], ideological_donors := [],
    individual_donors := [], data_source := "Error occurred", source_url := "" }

/-- LegislatorResearcher._create_error_response (and the identical
EnhancedLegislatorResearcher._create_error_response): the state field indexes
into the roles value when that value is truthy, which raises when the first
entry is not a dictionary. -/
def create_error_response (leg : List (String × PyVal)) (msg : String) :
    Except PyExn ErrorRecord :=
  let stateE : Except PyExn PyVal :=
    if pyTruthy (dictGet leg "roles" PyVal.none) then
      match pyIndex0 (dictGet leg "roles" (PyVal.list [PyVal.dict []])) with
      | Except.ok first => pyGet first "jurisdiction" (PyVal.str ("Unknown"))
      | Except.error e => Except.error e
    else Except.ok (PyVal.str ("Unknown"))
  match stateE with
  | Except.ok st =>
    Except.ok { legislator_id := dictGet leg "id" (PyVal.str ("")),
                name := dictGet leg "name" (PyVal.str ("Unknown")),
                state := st,
                error := msg,
                issues := [],
                donors := emptyDonors,
                sources := [],
                meta_error := true }
  | Except.error e => Except.error e

/-- Outcome of one call of the external research client on a given attempt:
either the text of the response, or a raised transport/service exception
with its message. -/
inductive ClientResult where
  | ok (text : List Char)
  | exn (msg : String)

/-- Value returned by research_legislator: the successful record carrying
the extracted JSON text, the error record, or the Python None that would be
returned if the loop fell through all attempts. -/
inductive ResearchOutcome where
  | success (json : List Char)
  | failure (rec : ErrorRecord)
  | pyNone

/-- Error message raised when the last attempt still finds no JSON; note the
word Claude in the text as written in the source. -/
def noJsonMsg : String := "No valid JSON found in Claude response after all retries"

/-- The for loop of research_legislator over the attempt numbers; the second
component of the result counts the research client calls that were made.
Each iteration builds the prompt, calls the client, extracts JSON and either
returns, retries, or turns a raised exception into an error record through
_create_error_response (whose own exceptions propagate out, as in Python).
The last-attempt test compares the attempt number with max_retries = 2. -/
def research_loop (client : Nat → ClientResult) (leg : List (String × PyVal)) :
    List Nat → Except PyExn (ResearchOutcome × Nat)
  | [] => Except.ok (ResearchOutcome.pyNone, 0)
  | attempt :: restAttempts =>
    match create_research_prompt leg with
    | Except.error e =>
      match create_error_response leg (exnMsg e) with
      | Except.ok r => Except.ok (ResearchOutcome.failure r, 0)
      | Except.error e2 => Except.error e2
    | Except.ok _prompt =>
      match client attempt with
      | ClientResult.exn m =>
        match create_error_response leg m with
        | Except.ok r => Except.ok (ResearchOutcome.failure r, 1)
        | Except.error e2 => Except.error e2
      | ClientResult.ok text =>
        match extract_json_from_response text with
        | some s =>
          if json_loads_ok s then Except.ok (ResearchOutcome.success s, 1)
          else
            match create_error_response leg ("Invalid JSON structure") with
            | Except.ok r => Except.ok (ResearchOutcome.failure r, 1)
            | Except.error e2 => Except.error e2
        | Option.none =>
          if attempt = 2 then
            match create_error_response leg noJsonMsg with
            | Except.ok r => Except.ok (ResearchOutcome.failure r, 1)
            | Except.error e2 => Except.error e2
          else
            match research_loop client leg restAttempts with
            | Except.ok (o, n) => Except.ok (o, n + 1)
            | Except.error e2 => Except.error e2

/-- research_legislator: three total attempts, attempt numbers 0, 1, 2
(max_retries = 2). -/
def research_legislator (client : Nat → ClientResult) (leg : List (String × PyVal)) :
    Except PyExn (ResearchOutcome × Nat) :=
  research_loop client leg [0, 1, 2]

/-- A minimal well-formed legislator record for concrete runs. -/
def legOk : List (String × PyVal) :=
  [("id", PyVal.str ("ocd-person/x")), ("name", PyVal.str ("Jane Roe"))]

/-- A legislator record whose roles hold a bare string; _create_error_response
indexes it and calls .get on the character, raising AttributeError. -/
def legBadRoles : List (String × PyVal) :=
  [("name", PyVal.str ("Jane Roe")), ("roles", PyVal.list [PyVal.str ("x")])]

example :
    research_legislator (fun _ => ClientResult.ok (chars ("no json here"))) legOk
    = Except.ok (ResearchOutcome.failure
        { legislator_id := PyVal.str ("ocd-person/x"),
          name := PyVal.str ("Jane Roe"),
          state := PyVal.str ("Unknown"),
          error := noJsonMsg,
          issues := [],
          donors := emptyDonors,
          sources := [],
          meta_error := true }, 3) := rfl

example :
    research_legislator (fun _ => ClientResult.ok (chars ("hi"))) legBadRoles
    = Except.error PyExn.attrError := rfl

example :
    research_legislator (fun _ => ClientResult.exn ("boom")) legOk
    = Except.ok (ResearchOutcome.failure
        { legislator_id := PyVal.str ("ocd-person/x"),
          name := PyVal.str ("Jane Roe"),
          state := PyVal.str ("Unknown"),
          error := "boom",
          issues := [],
          donors := emptyDonors,
          sources := [],
          meta_error := true }, 1) := rfl

/-!
Discovery (scripts/legislator_discovery.py).  File times are modelled in
seconds, the current date for role filtering as a calendar date plus a
second of day, matching the comparisons the script performs with datetime
values.  The person records handled by discovery are well formed YAML data,
so they are modelled with typed fields.
-/

/-- LegislatorDiscovery._needs_update: the record is due again when no file
exists, when the force flag is set, or when the file modification time is
before now minus 365 days (the timedelta of the source); times in seconds. -/
def needs_update (recordExists : Bool) (force : Bool) (nowSec mtimeSec : Int) : Bool :=
  if !recordExists then true
  else if force then true
  else decide (mtimeSec < nowSec - 365 * 86400)

/-- One role entry of a person record: type, end_date and district values,
each possibly missing; an empty end_date string is falsy in Python and is
kept distinct from a missing one. -/
structure Role where
  type : Option String
  end_date : Option String
  district : Option String

/-- A person record as discovery reads it. -/
structure Person where
  id : Option String
  name : Option String
  partyNames : List (Option String)
  roles : List Role

/-- The current datetime, split as the comparisons in the source use it:
calendar date plus the second of the day. -/
structure NowTime where
  year : Nat
  month : Nat
  day : Nat
  secOfDay : Nat

def isLeapYear (y : Nat) : Bool := (y % 4 = 0 && y % 100 != 0) || y % 400 = 0

def daysInMonth (y m : Nat) : Nat :=
  if m = 2 then (if isLeapYear y then 29 else 28)
  else if m = 4 || m = 6 || m = 9 || m = 11 then 30 else 31

def digitsToNat (cs : List Char) : Nat :=
  cs.foldl (fun n c => n * 10 + (c.toNat - 48)) 0

/-- datetime.fromisoformat restricted to the plain date form the data uses,
four digit year, two digit month, two digit day, dash separated, with the
calendar validity checks fromisoformat performs.  Other input shapes are
treated as unparseable, which the filter then takes as current. -/
def parseIsoDate (s : String) : Option (Nat × Nat × Nat) :=
  match s.data with
  | [y1, y2, y3, y4, h1, m1, m2, h2, d1, d2] =>
    if y1.isDigit && y2.isDigit && y3.isDigit && y4.isDigit && h1 = '-'
        && m1.isDigit && m2.isDigit && h2 = '-' && d1.isDigit && d2.isDigit then
      let y := digitsToNat [y1, y2, y3, y4]
      let m := digitsToNat [m1, m2]
      let d := digitsToNat [d1, d2]
      if 1 ≤ y && 1 ≤ m && m ≤ 12 && 1 ≤ d && d ≤ daysInMonth y m then
        some (y, m, d)
      else Option.none
    else Option.none
  | _ => Option.none

/-- Comparison end_datetime > now: the parsed end date carries time
00:00:00, so the datetime comparison is lexicographic on the date and then
on the second of the day. -/
def endDateGtNow (now : NowTime) (d : Nat × Nat × Nat) : Bool :=
  if d.1 != now.year then decide (now.year < d.1)
  else if d.2.1 != now.month then decide (now.month < d.2.1)
  else if d.2.2 != now.day then decide (now.day < d.2.2)
  else decide (0 > now.secOfDay)

def roleTypeQualifies (r : Role) : Bool :=
  r.type == some "upper" || r.type == some "lower" || r.type == some "legislature"

/-- The end_date test inside _has_active_legislative_role: a falsy end_date
is current; otherwise the date is parsed and must lie in the future; a value
that fails to parse is assumed current. -/
def roleCurrentCheck (now : NowTime) (ed : Option String) : Bool :=
  match ed with
  | Option.none => true
  | some s =>
    if s.isEmpty then true
    else
      match parseIsoDate s with
      | some d => endDateGtNow now d
      | Option.none => true

/-- LegislatorDiscovery._has_active_legislative_role: some role of type
upper, lower or legislature passes the end_date test. -/
def has_active_legislative_role (now : NowTime) (p : Person) : Bool :=
  p.roles.any (fun r => roleTypeQualifies r && roleCurrentCheck now r.end_date)

/-- The record discovery emits for a selected person. -/
structure LegInfo where
  id : String
  name : String
  state : String
  filename : String
  party : String
  district : String
  chamber : String
  yaml_path : String
  output_path : String

/-- The current-role test used by _create_legislator_info (and by the prompt
builders): the end_date must be falsy; a future end_date does not qualify
here, unlike in the active-role filter. -/
def roleEndFalsy (r : Role) : Bool :=
  match r.end_date with
  | Option.none => true
  | some s => s.isEmpty

/-- LegislatorDiscovery._create_legislator_info: party from the first party
entry, district and chamber from the first role of qualifying type with a
falsy end_date, with defaults when no such role exists. -/
def create_legislator_info (p : Person) (state filename : String) : LegInfo :=
  let party := match p.partyNames with
    | [] => "Unknown"
    | e :: _ => (e).getD ("Unknown")
  let current := p.roles.find? (fun r => roleTypeQualifies r && roleEndFalsy r)
  { id := (p.id).getD (""),
    name := (p.name).getD ("Unknown"),
    state := state,
    filename := filename,
    party := party,
    district := match current with
      | some r => (r.district).getD ("")
      | Option.none => "",
    chamber := match current with
      | some r => (r.type).getD ("legislature")
      | Option.none => "legislature",
    yaml_path := "openstates-people/data/" ++ state ++ "/legislature/" ++ filename ++ ".yml",
    output_path := "data/" ++ state ++ "/legislature/" ++ filename ++ ".research.json" }

/-- LegislatorDiscovery._process_legislator_file for one loaded person: no
output when the active-role filter rejects the person, otherwise the info
record when an update is needed or forced. -/
def process_legislator (now : NowTime) (recordExists force : Bool)
    (nowSec mtimeSec : Int) (p : Person) (state filename : String) : Option LegInfo :=
  if !has_active_legislative_role now p then Option.none
  else if needs_update recordExists force nowSec mtimeSec || force then
    some (create_legislator_info p state filename)
  else Option.none

/-- Modelled from the claim wording for C7: the first role whose type is in
the qualifying set and whose end-date is absent or lies in the future. -/
def claimEndOk (now : NowTime) (ed : Option String) : Bool :=
  match ed with
  | Option.none => true
  | some s =>
    match parseIsoDate s with
    | some d => endDateGtNow now d
    | Option.none => false

/-- Modelled from the claim wording for C7: the claimed current role. -/
def claimed_current_role (now : NowTime) (roles : List Role) : Option Role :=
  roles.find? (fun r => roleTypeQualifies r && claimEndOk now r.end_date)

/-!
Consolidation (scripts/consolidate_results.py).  The loaded research
records are supplied as a list (file discovery and JSON loading are plain
I/O); well formed records are modelled with typed fields.  Token counts can
be absent or non numeric, which the cost estimator must survive.  Monetary
arithmetic, written over floats in the source, is modelled over the
rationals; every concrete value in the claims is exactly representable in
both.
-/

inductive TokenCell where
  | num (q : ℚ)
  | nonNum

/-- The tokens_used value inside processing_metadata: the metadata itself
may fail to be a dictionary (its .get then raises, caught by the estimator),
tokens_used may fail to be a dictionary, or it is a dictionary with possibly
missing or non numeric entries. -/
inductive TokensUsed where
  | metaNotDict
  | notDict
  | fields (input output : Option TokenCell)

/-- ResultsConsolidator._estimate_cost: 3 currency units per million input
tokens plus 15 per million output tokens; a missing count defaults to 0; any
exception (non dictionary metadata or tokens_used, non numeric count making
the division raise TypeError) yields 0. -/
def estimate_cost : TokensUsed → ℚ
  | TokensUsed.metaNotDict => 0
  | TokensUsed.notDict => 0
  | TokensUsed.fields i o =>
    match (i).getD (TokenCell.num 0), (o).getD (TokenCell.num 0) with
    | TokenCell.num a, TokenCell.num b => a / 1000000 * 3 + b / 1000000 * 15
    | _, _ => 0

/-- A loaded research record as consolidate_results reads it. -/
structure RData where
  name : Option String
  state : Option String
  issues : List PyVal
  donors_top_companies : List PyVal
  donors_top_industries : List PyVal
  donors_ideological : List PyVal
  donors_individual : List PyVal
  error : PyVal
  last_updated : Option String
  tokens : TokensUsed

/-- The donor tally of consolidate_results: top_companies plus
ideological_donors. -/
def donors_count (d : RData) : Nat :=
  d.donors_top_companies.length + d.donors_ideological.length

/-- One element of the results list of consolidate_results. -/
structure REntry where
  name : String
  state : String
  issues_count : Nat
  donors_count : Nat
  has_error : Bool
  last_updated : String
  cost : ℚ

def recordEntry (d : RData) : REntry :=
  { name := (d.name).getD ("Unknown"),
    state := (d.state).getD ("Unknown"),
    issues_count := d.issues.length,
    donors_count := donors_count d,
    has_error := pyTruthy d.error,
    last_updated := (d.last_updated).getD (""),
    cost := estimate_cost d.tokens }

structure StateStats where
  processed : Nat
  issues : Nat
  donors : Nat
  errors : Nat

def zeroStats : StateStats := { processed := 0, issues := 0, donors := 0, errors := 0 }

/-- Update of the per-state statistics dictionary, keeping the Python dict
insertion order: a new state is appended, an existing one updated in place. -/
def updateAssoc : List (String × StateStats) → String → (StateStats → StateStats) →
    List (String × StateStats)
  | [], st, f => [(st, f zeroStats)]
  | (k, v) :: rest, st, f =>
    if k = st then (k, f v) :: rest else (k, v) :: updateAssoc rest st f

def recordStats (d : RData) (v : StateStats) : StateStats :=
  { processed := v.processed + 1,
    issues := v.issues + d.issues.length,
    donors := v.donors + donors_count d,
    errors := v.errors + (if pyTruthy d.error then 1 else 0) }

/-- Lexicographic strict order on character lists by code point, the order
Python uses on strings. -/
def charListLt : List Char → List Char → Bool
  | [], [] => false
  | [], _ :: _ => true
  | _ :: _, [] => false
  | a :: xs, b :: ys =>
    if a.toNat < b.toNat then true
    else if b.toNat < a.toNat then false
    else charListLt xs ys

def strLt (a b : String) : Bool := charListLt a.data b.data

/-- The sort key comparison of _generate_summary: the pair of state and
name, compared as Python compares tuples of strings. -/
def legLE (x y : REntry) : Bool :=
  strLt x.state y.state || (x.state == y.state && (strLt x.name y.name || x.name == y.name))

/-- Stable insertion used to model the stable Python sorted builtin: a new
element coming earlier in the input is placed before equal later elements. -/
def stableInsert (le : α → α → Bool) (x : α) : List α → List α
  | [] => [x]
  | y :: ys => if le x y then x :: y :: ys else y :: stableInsert le x ys

/-- Model of sorted(results, key): stable sort with respect to the key
comparison.  A stable sort is determined uniquely by the order, so this
models the builtin exactly. -/
def pySorted (le : α → α → Bool) (l : List α) : List α :=
  l.foldr (stableInsert le) []

/-- Rounding to two decimals; the source rounds the float total with the
round builtin. -/
def roundQ2 (q : ℚ) : ℚ := (round (q * 100) : ℤ) / 100

structure Summary where
  total_processed : Nat
  successful : Nat
  errors : Nat
  total_issues : Nat
  total_donors : Nat
  estimated_cost : ℚ
  by_state : List (String × StateStats)
  legislators : List REntry

/-- ResultsConsolidator._generate_summary. -/
def generate_summary (results : List REntry) (stats : List (String × StateStats))
    (totalCost : ℚ) : Summary :=
  { total_processed := results.length,
    successful := (results.filter (fun r => !r.has_error)).length,
    errors := (results.filter (fun r => r.has_error)).length,
    total_issues := (results.map (fun r => r.issues_count)).sum,
    total_donors := (results.map (fun r => r.donors_count)).sum,
    estimated_cost := roundQ2 totalCost,
    by_state := stats,
    legislators := pySorted legLE results }

/-- ResultsConsolidator.consolidate_results over the loaded records: one
pass accumulating the results list, the per-state statistics and the total
cost, then the summary. -/
def consolidate_results (datas : List RData) : Summary :=
  let acc := datas.foldl
    (fun acc d =>
      (acc.1 ++ [recordEntry d],
       updateAssoc acc.2.1 ((d.state).getD ("Unknown")) (recordStats d),
       acc.2.2 + estimate_cost d.tokens))
    (([], [], 0) : List REntry × List (String × StateStats) × ℚ)
  generate_summary acc.1 acc.2.1 acc.2.2

/-!
Helper lemmas.
-/

lemma findValidCandidate_append (A B : List (List Char)) :
    findValidCandidate (A ++ B)
      = match findValidCandidate A with
        | some r => some r
        | Option.none => findValidCandidate B := by
  induction A with
  | nil => simp [findValidCandidate]
  | cons m rest ih =>
    cases hj : json_loads_ok (pyStrip m) with
    | true => simp [findValidCandidate, hj]
    | false => simp [findValidCandidate, hj, ih]

lemma extract_eq_code_order (s : List Char) :
    extract_json_from_response s = extract_code_order s := by
  unfold extract_json_from_response extract_code_order
  rw [findValidCandidate_append, findValidCandidate_append]
  cases findValidCandidate (findall_brace s) <;>
    cases findValidCandidate (findall_json_fence s) <;>
    cases findValidCandidate (findall_any_fence s) <;> rfl

/-- Claim C1.  Corrected: the code tries the brace-span pattern first, then
the json-labeled fence, then the generic fence (the reverse of the spec
preference for the brace span); the spec example with a json fence followed
by trailing prose still extracts the fenced object. -/
theorem claim_C1_extraction_order :
    (∀ s : List Char, extract_json_from_response s = extract_code_order s)
    ∧ extract_json_from_response (chars exampleResponse)
        = some (chars ("\x7b\"a\":1\x7d")) :=
  ⟨extract_eq_code_order, by decide⟩

/-- Claim C1 counterexample: on an object whose string member spells out a
json fence, the code returns the whole brace span while the spec order would
return the fenced empty object. -/
theorem claim_C1_counterexample :
    extract_json_from_response (chars orderCounterexample)
        = some (chars orderCounterexample)
    ∧ extract_spec_order (chars orderCounterexample) = some (chars ("\x7b\x7d"))
    ∧ extract_json_from_response (chars orderCounterexample)
        ≠ extract_spec_order (chars orderCounterexample) :=
  ⟨by decide, by decide, by decide⟩

/-- Claim C5.  needs_research is true exactly when the record is absent, the
force flag is set, or the file age exceeds 365 days; a record 365 days and
one second old is refreshed, a record 364 days old is not. -/
theorem claim_C5_needs_update :
    (∀ (recordExists force : Bool) (nowSec mtimeSec : Int),
      needs_update recordExists force nowSec mtimeSec
        = (!recordExists || force || decide (nowSec - mtimeSec > 365 * 86400)))
    ∧ needs_update true false 0 (-(365 * 86400 + 1)) = true
    ∧ needs_update true false 0 (-(364 * 86400)) = false := by
  refine ⟨?_, by decide, by decide⟩
  intro recordExists force nowSec mtimeSec
  cases recordExists <;> cases force <;> simp [needs_update]
  omega

/-- Claim C6.  Cost contribution: 3 per million input tokens plus 15 per
million output tokens for numeric counts, exactly 18 at one million of each,
and 0 when the counts are absent or non numeric. -/
theorem claim_C6_cost_estimate :
    (∀ a b : ℚ,
      estimate_cost (TokensUsed.fields (some (TokenCell.num a)) (some (TokenCell.num b)))
        = a / 1000000 * 3 + b / 1000000 * 15)
    ∧ estimate_cost (TokensUsed.fields (some (TokenCell.num 1000000))
        (some (TokenCell.num 1000000))) = 18
    ∧ (∀ i o : Option TokenCell,
        (i = Option.none ∨ i = some TokenCell.nonNum) →
        (o = Option.none ∨ o = some TokenCell.nonNum) →
        estimate_cost (TokensUsed.fields i o) = 0) := by
  refine ⟨fun a b => rfl, by norm_num [estimate_cost], ?_⟩
  intro i o hi ho
  rcases hi with hi | hi <;> rcases ho with ho | ho <;>
    (subst hi; subst ho; norm_num [estimate_cost])

/-- Claim C6 witness: both counts absent gives cost 0. -/
theorem claim_C6_witness :
    estimate_cost (TokensUsed.fields Option.none Option.none) = 0 :=
  claim_C6_cost_estimate.2.2 Option.none Option.none (Or.inl rfl) (Or.inl rfl)

/-!
Predicates and lemmas for the research loop claims.
-/

/-- The roles value of the record does not make _create_error_response
raise: either it is falsy, or its first element is a dictionary. -/
def roles_safe (leg : List (String × PyVal)) : Bool :=
  !pyTruthy (dictGet leg "roles" PyVal.none)
  || (match pyIndex0 (dictGet leg "roles" (PyVal.list [PyVal.dict []])) with
      | Except.ok (PyVal.dict _) => true
      | _ => false)

/-- The prompt builder succeeds on the record. -/
def prompt_ok (leg : List (String × PyVal)) : Bool :=
  match create_research_prompt leg with
  | Except.ok _ => true
  | Except.error _ => false

/-- The call returned normally. -/
def except_returns {ε α : Type} : Except ε α → Bool
  | Except.ok _ => true
  | Except.error _ => false

/-- The outcome is an error record with the given message and empty issues
and donors substructures and a set metadata error flag. -/
def error_outcome_ok (e : Except PyExn ErrorRecord) (msg : String) : Bool :=
  match e with
  | Except.ok r =>
    (r.error == msg) && r.issues.isEmpty
      && r.donors.top_companies.isEmpty && r.donors.top_industries.isEmpty
      && r.donors.ideological_donors.isEmpty && r.donors.individual_donors.isEmpty
      && r.meta_error
  | Except.error _ => false

lemma prompt_ok_spec {leg : List (String × PyVal)} (h : prompt_ok leg = true) :
    ∃ p, create_research_prompt leg = Except.ok p := by
  unfold prompt_ok at h
  cases hp : create_research_prompt leg with
  | ok p => exact ⟨p, rfl⟩
  | error e => rw [hp] at h; exact absurd h (by simp)

lemma create_error_ok {leg : List (String × PyVal)} (hs : roles_safe leg = true)
    (msg : String) :
    ∃ r, create_error_response leg msg = Except.ok r
      ∧ r.error = msg ∧ r.issues = [] ∧ r.donors = emptyDonors ∧ r.meta_error = true := by
  unfold roles_safe at hs
  cases htr : pyTruthy (dictGet leg "roles" PyVal.none) with
  | false =>
    refine ⟨{ legislator_id := dictGet leg "id" (PyVal.str ("")),
              name := dictGet leg "name" (PyVal.str ("Unknown")),
              state := PyVal.str ("Unknown"), error := msg, issues := [],
              donors := emptyDonors, sources := [], meta_error := true },
      ?_, rfl, rfl, rfl, rfl⟩
    simp [create_error_response, htr]
  | true =>
    rw [htr] at hs
    simp only [Bool.not_true, Bool.false_or] at hs
    cases hfi : pyIndex0 (dictGet leg "roles" (PyVal.list [PyVal.dict []])) with
    | error e => rw [hfi] at hs; exact absurd hs (by simp)
    | ok v =>
      cases v with
      | dict kvs =>
        refine ⟨{ legislator_id := dictGet leg "id" (PyVal.str ("")),
                  name := dictGet leg "name" (PyVal.str ("Unknown")),
                  state := dictGet kvs "jurisdiction" (PyVal.str ("Unknown")),
                  error := msg, issues := [],
                  donors := emptyDonors, sources := [], meta_error := true },
          ?_, rfl, rfl, rfl, rfl⟩
        simp [create_error_response, htr, hfi, pyGet]
      | str s => rw [hfi] at hs; exact absurd hs (by simp)
      | int n => rw [hfi] at hs; exact absurd hs (by simp)
      | list xs => rw [hfi] at hs; exact absurd hs (by simp)
      | none => rw [hfi] at hs; exact absurd hs (by simp)

lemma error_outcome_ok_of {leg : List (String × PyVal)} (hs : roles_safe leg = true)
    (msg : String) : error_outcome_ok (create_error_response leg msg) msg = true := by
  obtain ⟨r, hr, he, hi, hd, hm⟩ := create_error_ok hs msg
  simp [error_outcome_ok, hr, he, hi, hd, hm, emptyDonors]

/-- Claim C2 counterexample: a run whose three responses hold no JSON ends
with the message written in the source, which contains the word Claude and
therefore differs from the message the claim states. -/
theorem claim_C2_counterexample :
    research_legislator (fun _ => ClientResult.ok (chars ("no json here"))) legOk
      = Except.ok (ResearchOutcome.failure
          { legislator_id := PyVal.str ("ocd-person/x"),
            name := PyVal.str ("Jane Roe"),
            state := PyVal.str ("Unknown"),
            error := noJsonMsg,
            issues := [],
            donors := emptyDonors,
            sources := [],
            meta_error := true }, 3)
    ∧ noJsonMsg ≠ "No valid JSON found in response after all retries" :=
  ⟨rfl, by decide⟩

/-- Claim C2.  Corrected error text: when every attempt yields a response
with no parseable JSON, exactly three client calls are made and the error
record carries the message of noJsonMsg (the source text, which mentions
Claude), with empty issues and donors. -/
theorem claim_C2_retry_exhaustion (client : Nat → ClientResult)
    (leg : List (String × PyVal)) (t : Nat → List Char)
    (hs : roles_safe leg = true) (hp : prompt_ok leg = true)
    (hc : ∀ a, a < 3 → client a = ClientResult.ok (t a))
    (he : ∀ a, a < 3 → extract_json_from_response (t a) = Option.none) :
    research_legislator client leg
      = Except.map (fun r => (ResearchOutcome.failure r, 3))
          (create_error_response leg noJsonMsg)
    ∧ error_outcome_ok (create_error_response leg noJsonMsg) noJsonMsg = true := by
  obtain ⟨p, hpp⟩ := prompt_ok_spec hp
  obtain ⟨r, hr, -, -, -, -⟩ := create_error_ok hs noJsonMsg
  refine ⟨?_, error_outcome_ok_of hs noJsonMsg⟩
  simp [research_legislator, research_loop, Except.map, hpp, hr,
    hc 0 (by omega), hc 1 (by omega), hc 2 (by omega),
    he 0 (by omega), he 1 (by omega), he 2 (by omega)]

/-- Claim C2 witness: a concrete record and a client whose responses hold no
JSON. -/
theorem claim_C2_witness :
    research_legislator (fun _ => ClientResult.ok (chars ("still no json"))) legOk
      = Except.map (fun r => (ResearchOutcome.failure r, 3))
          (create_error_response legOk noJsonMsg)
    ∧ error_outcome_ok (create_error_response legOk noJsonMsg) noJsonMsg = true :=
  claim_C2_retry_exhaustion (fun _ => ClientResult.ok (chars ("still no json"))) legOk
    (fun _ => chars ("still no json")) (by decide) (by decide)
    (fun a _ => rfl)
    (fun a _ => by
      show extract_json_from_response (chars ("still no json")) = Option.none
      decide)

/-- Claim C3.  A transport failure on attempt k ends the run at once: the
number of client calls is k plus one (one call when the failure is on the
first attempt), the error record carries the exception message and the
metadata error flag is set. -/
theorem claim_C3_transport_failure (client : Nat → ClientResult)
    (leg : List (String × PyVal)) (t : Nat → List Char) (k : Nat) (m : String)
    (hs : roles_safe leg = true) (hp : prompt_ok leg = true) (hk : k < 3)
    (hc : ∀ a, a < k → client a = ClientResult.ok (t a))
    (he : ∀ a, a < k → extract_json_from_response (t a) = Option.none)
    (hf : client k = ClientResult.exn m) :
    research_legislator client leg
      = Except.map (fun r => (ResearchOutcome.failure r, k + 1))
          (create_error_response leg m)
    ∧ error_outcome_ok (create_error_response leg m) m = true := by
  obtain ⟨p, hpp⟩ := prompt_ok_spec hp
  obtain ⟨r, hr, -, -, -, -⟩ := create_error_ok hs m
  refine ⟨?_, error_outcome_ok_of hs m⟩
  interval_cases k
  · simp [research_legislator, research_loop, Except.map, hpp, hf, hr]
  · simp [research_legislator, research_loop, Except.map, hpp, hf, hr,
      hc 0 (by omega), he 0 (by omega)]
  · simp [research_legislator, research_loop, Except.map, hpp, hf, hr,
      hc 0 (by omega), hc 1 (by omega), he 0 (by omega), he 1 (by omega)]

/-- Claim C3 witness: failure on the first attempt, one client call. -/
theorem claim_C3_witness :
    research_legislator (fun _ => ClientResult.exn ("connection reset")) legOk
      = Except.map (fun r => (ResearchOutcome.failure r, 0 + 1))
          (create_error_response legOk ("connection reset"))
    ∧ error_outcome_ok (create_error_response legOk ("connection reset"))
        ("connection reset") = true :=
  claim_C3_transport_failure (fun _ => ClientResult.exn ("connection reset")) legOk
    (fun _ => []) 0 ("connection reset") (by decide) (by decide) (by omega)
    (fun a ha => absurd ha (by omega)) (fun a ha => absurd ha (by omega)) rfl

/-- Claim C4 counterexample: a dictionary whose roles list holds a bare
string makes research_legislator raise AttributeError out of the error
handler itself. -/
theorem claim_C4_counterexample :
    research_legislator (fun _ => ClientResult.ok (chars ("hi"))) legBadRoles
      = Except.error PyExn.attrError
    ∧ except_returns (research_legislator (fun _ => ClientResult.ok (chars ("hi")))
        legBadRoles) = false :=
  ⟨rfl, rfl⟩

lemma research_loop_returns (client : Nat → ClientResult)
    (leg : List (String × PyVal)) (hs : roles_safe leg = true) :
    ∀ attempts : List Nat, except_returns (research_loop client leg attempts) = true := by
  intro attempts
  induction attempts with
  | nil => rfl
  | cons a rest ih =>
    cases hcp : create_research_prompt leg with
    | error e =>
      obtain ⟨r, hr, -⟩ := create_error_ok hs (exnMsg e)
      simp [research_loop, hcp, hr, except_returns]
    | ok p =>
      cases hcl : client a with
      | exn m =>
        obtain ⟨r, hr, -⟩ := create_error_ok hs m
        simp [research_loop, hcp, hcl, hr, except_returns]
      | ok text =>
        cases hex : extract_json_from_response text with
        | some s =>
          cases hj : json_loads_ok s with
          | true => simp [research_loop, hcp, hcl, hex, hj, except_returns]
          | false =>
            obtain ⟨r, hr, -⟩ := create_error_ok hs ("Invalid JSON structure")
            simp [research_loop, hcp, hcl, hex, hj, hr, except_returns]
        | none =>
          by_cases ha : a = 2
          · obtain ⟨r, hr, -⟩ := create_error_ok hs noJsonMsg
            subst ha
            simp [research_loop, hcp, hcl, hex, hr, except_returns]
          · cases hrec : research_loop client leg rest with
            | ok v =>
              cases v
              simp [research_loop, hcp, hcl, hex, ha, hrec, except_returns]
            | error e =>
              rw [hrec] at ih
              exact absurd ih (by simp [except_returns])

/-- Claim C4.  Corrected: research_legislator returns a record rather than
raising for every input record whose roles value cannot make the error
response builder itself raise (falsy, or first element a dictionary); the
counterexample shows the unrestricted claim fails. -/
theorem claim_C4_never_raises (client : Nat → ClientResult)
    (leg : List (String × PyVal)) (hs : roles_safe leg = true) :
    except_returns (research_legislator client leg) = true :=
  research_loop_returns client leg hs [0, 1, 2]

/-- Claim C4 witness: a concrete safe record returns normally. -/
theorem claim_C4_witness :
    except_returns (research_legislator (fun _ => ClientResult.ok (chars (""))) legOk)
      = true :=
  claim_C4_never_raises (fun _ => ClientResult.ok (chars (""))) legOk (by decide)

/-!
Claim C10: the extraction helper only returns validated candidates, so the
branch of research_legislator that handles a JSON decode failure of the
extracted string is dead code.  The variant below replaces that branch with
a distinct outcome; equality of the two functions expresses unreachability.
-/

lemma findValidCandidate_valid :
    ∀ ms s, findValidCandidate ms = some s → json_loads_ok s = true := by
  intro ms
  induction ms with
  | nil => intro s h; simp [findValidCandidate] at h
  | cons m rest ih =>
    intro s h
    cases hj : json_loads_ok (pyStrip m) with
    | true =>
      simp only [findValidCandidate, hj, if_true] at h
      cases h; exact hj
    | false =>
      simp only [findValidCandidate, hj] at h
      exact ih s (by simpa using h)

lemma extract_valid {t s : List Char}
    (h : extract_json_from_response t = some s) : json_loads_ok s = true := by
  rw [extract_eq_code_order] at h
  unfold extract_code_order at h
  exact findValidCandidate_valid _ _ h

/-- research_loop with the JSON decode failure branch replaced by a distinct
outcome; the branch content is irrelevant because it can never run. -/
def research_loop_no_invalid_branch (client : Nat → ClientResult)
    (leg : List (String × PyVal)) : List Nat → Except PyExn (ResearchOutcome × Nat)
  | [] => Except.ok (ResearchOutcome.pyNone, 0)
  | attempt :: restAttempts =>
    match create_research_prompt leg with
    | Except.error e =>
      match create_error_response leg (exnMsg e) with
      | Except.ok r => Except.ok (ResearchOutcome.failure r, 0)
      | Except.error e2 => Except.error e2
    | Except.ok _prompt =>
      match client attempt with
      | ClientResult.exn m =>
        match create_error_response leg m with
        | Except.ok r => Except.ok (ResearchOutcome.failure r, 1)
        | Except.error e2 => Except.error e2
      | ClientResult.ok text =>
        match extract_json_from_response text with
        | some s =>
          if json_loads_ok s then Except.ok (ResearchOutcome.success s, 1)
          else Except.ok (ResearchOutcome.pyNone, 999)
        | Option.none =>
          if attempt = 2 then
            match create_error_response leg noJsonMsg with
            | Except.ok r => Except.ok (ResearchOutcome.failure r, 1)
            | Except.error e2 => Except.error e2
          else
            match research_loop_no_invalid_branch client leg restAttempts with
            | Except.ok (o, n) => Except.ok (o, n + 1)
            | Except.error e2 => Except.error e2

def research_legislator_no_invalid_branch (client : Nat → ClientResult)
    (leg : List (String × PyVal)) : Except PyExn (ResearchOutcome × Nat) :=
  research_loop_no_invalid_branch client leg [0, 1, 2]

lemma research_loop_invalid_branch_dead (client : Nat → ClientResult)
    (leg : List (String × PyVal)) :
    ∀ attempts : List Nat,
      research_loop client leg attempts
        = research_loop_no_invalid_branch client leg attempts := by
  intro attempts
  induction attempts with
  | nil => rfl
  | cons a rest ih =>
    cases hcp : create_research_prompt leg with
    | error e => simp [research_loop, research_loop_no_invalid_branch, hcp]
    | ok p =>
      cases hcl : client a with
      | exn m => simp [research_loop, research_loop_no_invalid_branch, hcp, hcl]
      | ok text =>
        cases hex : extract_json_from_response text with
        | some s =>
          simp [research_loop, research_loop_no_invalid_branch, hcp, hcl, hex,
            extract_valid hex]
        | none =>
          by_cases ha : a = 2
          · subst ha
            simp [research_loop, research_loop_no_invalid_branch, hcp, hcl, hex]
          · simp [research_loop, research_loop_no_invalid_branch, hcp, hcl, hex,
              ha, ih]

/-- Claim C10.  Every string the extraction helper returns parses as strict
JSON, and research_legislator never reaches the branch that would report an
invalid JSON structure: replacing that branch with a different outcome does
not change the function. -/
theorem claim_C10_extractor_validates :
    (∀ t s, extract_json_from_response t = some s → json_loads_ok s = true)
    ∧ (∀ (client : Nat → ClientResult) (leg : List (String × PyVal)),
        research_legislator client leg
          = research_legislator_no_invalid_branch client leg) :=
  ⟨fun _ _ h => extract_valid h,
   fun client leg => research_loop_invalid_branch_dead client leg [0, 1, 2]⟩

/-- Claim C10 witness: the empty object response. -/
theorem claim_C10_witness :
    json_loads_ok (chars ("\x7b\x7d")) = true :=
  claim_C10_extractor_validates.1 (chars ("\x7b\x7d")) (chars ("\x7b\x7d")) (by decide)

/-!
Claim C7: the role filter accepts absent, future and unparseable end dates,
but the chamber and district derivation only accepts falsy end dates.
-/

/-- A current date for concrete runs. -/
def now0 : NowTime := { year := 2026, month := 10, day := 12, secOfDay := 3600 }

/-- A person whose only qualifying role carries a future end date. -/
def personFuture : Person :=
  { id := Option.none, name := some "Fut Ure", partyNames := [],
    roles := [{ type := some "upper", end_date := some "9999-01-01",
                district := some "7" }] }

/-- A person whose only qualifying role carries a past end date. -/
def personPast : Person :=
  { id := Option.none, name := some "P Ast", partyNames := [],
    roles := [{ type := some "upper", end_date := some "2000-01-01",
                district := some "3" }] }

/-- Claim C7 counterexample: the future-dated role passes the filter (the
record is included, not excluded) and is the claimed current role, yet
chamber and district are derived from no role at all and fall back to the
defaults instead of the role values. -/
theorem claim_C7_counterexample :
    has_active_legislative_role now0 personFuture = true
    ∧ (process_legislator now0 false false 0 0 personFuture "mt" "fut").isSome = true
    ∧ (claimed_current_role now0 personFuture.roles).map Role.type = some (some "upper")
    ∧ (create_legislator_info personFuture "mt" "fut").chamber = "legislature"
    ∧ (create_legislator_info personFuture "mt" "fut").district = ""
    ∧ ("legislature" : String) ≠ "upper" :=
  ⟨by decide, by decide, by decide, by decide, by decide, by decide⟩

/-- Claim C7.  Corrected: a person none of whose qualifying roles is
current (each has a truthy, parseable end date not in the future) is
excluded from discovery entirely; chamber and district are derived from the
first role of qualifying type whose end date is falsy, with defaults
legislature and empty district when no such role exists. -/
theorem claim_C7_role_filter :
    (∀ (now : NowTime) (recordExists force : Bool) (nowSec mtimeSec : Int)
        (p : Person) (st fn : String),
      (∀ r ∈ p.roles, roleTypeQualifies r = true →
        ∃ s d, r.end_date = some s ∧ s.isEmpty = false ∧ parseIsoDate s = some d
          ∧ endDateGtNow now d = false) →
      process_legislator now recordExists force nowSec mtimeSec p st fn = Option.none)
    ∧ (∀ (p : Person) (st fn : String) (r : Role),
        p.roles.find? (fun r => roleTypeQualifies r && roleEndFalsy r) = some r →
        (create_legislator_info p st fn).chamber = (r.type).getD ("legislature")
          ∧ (create_legislator_info p st fn).district = (r.district).getD (""))
    ∧ (∀ (p : Person) (st fn : String),
        p.roles.find? (fun r => roleTypeQualifies r && roleEndFalsy r) = Option.none →
        (create_legislator_info p st fn).chamber = "legislature"
          ∧ (create_legislator_info p st fn).district = "") := by
  refine ⟨?_, ?_, ?_⟩
  · intro now recordExists force nowSec mtimeSec p st fn h
    have hact : has_active_legislative_role now p = false := by
      unfold has_active_legislative_role
      rw [List.any_eq_false]
      intro r hr
      by_cases hq : roleTypeQualifies r = true
      · obtain ⟨s, d, hed, hne, hps, hgt⟩ := h r hr hq
        simp [hq, roleCurrentCheck, hed, hne, hps, hgt]
      · simp [show roleTypeQualifies r = false from by simpa using hq]
    simp [process_legislator, hact]
  · intro p st fn r hf
    constructor <;> simp [create_legislator_info, hf]
  · intro p st fn hf
    constructor <;> simp [create_legislator_info, hf]

/-- Claim C7 witness: the past-dated person is excluded even with an absent
record and the update path open. -/
theorem claim_C7_witness :
    process_legislator now0 false false 0 0 personPast "mt" "past" = Option.none :=
  claim_C7_role_filter.1 now0 false false 0 0 personPast "mt" "past" (by
    intro r hr hq
    have hr2 : r = { type := some "upper", end_date := some "2000-01-01",
                     district := some "3" } := by
      simpa [personPast] using hr
    subst hr2
    exact ⟨"2000-01-01", (2000, 1, 1), rfl, rfl, by decide, by decide⟩)

/-!
Claims C8 and C9: donor tally and summary ordering.
-/

lemma consolidate_results_list (datas : List RData) :
    ∀ (r0 : List REntry) (s0 : List (String × StateStats)) (c0 : ℚ),
      (datas.foldl
        (fun acc d =>
          (acc.1 ++ [recordEntry d],
           updateAssoc acc.2.1 ((d.state).getD ("Unknown")) (recordStats d),
           acc.2.2 + estimate_cost d.tokens)) (r0, s0, c0)).1
        = r0 ++ datas.map recordEntry := by
  induction datas with
  | nil => intro r0 s0 c0; simp
  | cons d rest ih => intro r0 s0 c0; simp [ih, List.append_assoc]

lemma consolidate_legislators (datas : List RData) :
    (consolidate_results datas).legislators
      = pySorted legLE (datas.map recordEntry) := by
  simp only [consolidate_results, generate_summary]
  rw [consolidate_results_list datas [] [] 0]
  rfl

lemma consolidate_total_donors (datas : List RData) :
    (consolidate_results datas).total_donors = (datas.map donors_count).sum := by
  simp only [consolidate_results, generate_summary]
  rw [consolidate_results_list datas [] [] 0]
  simp only [List.nil_append, List.map_map]
  rfl

/-- Claim C8.  The donor tally of a record counts top_companies plus
ideological_donors; the summary total is the sum of the per-record tallies;
changing the individual_donors and top_industries entries of every record
changes neither tally nor total. -/
theorem claim_C8_donor_tally :
    (∀ d : RData, donors_count d
        = d.donors_top_companies.length + d.donors_ideological.length)
    ∧ (∀ datas : List RData,
        (consolidate_results datas).total_donors = (datas.map donors_count).sum)
    ∧ (∀ (datas : List RData) (f g : RData → List PyVal),
        (consolidate_results (datas.map (fun d =>
            { d with donors_individual := f d,
                     donors_top_industries := g d }))).total_donors
          = (consolidate_results datas).total_donors) := by
  refine ⟨fun d => rfl, consolidate_total_donors, ?_⟩
  intro datas f g
  rw [consolidate_total_donors, consolidate_total_donors, List.map_map]
  rfl

/-!
Order lemmas for the summary sort.
-/

lemma charListLt_irrefl : ∀ xs : List Char, charListLt xs xs = false := by
  intro xs
  induction xs with
  | nil => rfl
  | cons a rest ih => simp [charListLt, ih]

lemma charListLt_asymm :
    ∀ xs ys : List Char, charListLt xs ys = true → charListLt ys xs = false := by
  intro xs
  induction xs with
  | nil =>
    intro ys h
    cases ys with
    | nil => simp [charListLt] at h
    | cons b bs => simp [charListLt]
  | cons a rest ih =>
    intro ys h
    cases ys with
    | nil => simp [charListLt] at h
    | cons b bs =>
      by_cases h1 : a.toNat < b.toNat
      · have h2 : ¬ b.toNat < a.toNat := by omega
        simp [charListLt, h1, h2]
      · by_cases h2 : b.toNat < a.toNat
        · simp [charListLt, h1, h2] at h
        · simp [charListLt, h1, h2] at h
          simp [charListLt, h1, h2, ih bs h]

lemma charListLt_connex :
    ∀ xs ys : List Char, charListLt xs ys = false → charListLt ys xs = false →
      xs = ys := by
  intro xs
  induction xs with
  | nil =>
    intro ys h1 h2
    cases ys with
    | nil => rfl
    | cons b bs => simp [charListLt] at h1
  | cons a rest ih =>
    intro ys h1 h2
    cases ys with
    | nil => simp [charListLt] at h2
    | cons b bs =>
      by_cases hlt : a.toNat < b.toNat
      · simp [charListLt, hlt] at h1
      · by_cases hgt : b.toNat < a.toNat
        · simp [charListLt, hgt] at h2
        · have hab : a = b :=
            Char.eq_of_val_eq (UInt32.toNat.inj (show a.toNat = b.toNat by omega))
          subst hab
          simp [charListLt, hlt] at h1 h2
          rw [ih bs h1 h2]

lemma charListLt_trans :
    ∀ xs ys zs : List Char, charListLt xs ys = true → charListLt ys zs = true →
      charListLt xs zs = true := by
  intro xs
  induction xs with
  | nil =>
    intro ys zs h1 h2
    cases ys with
    | nil => simp [charListLt] at h1
    | cons b bs =>
      cases zs with
      | nil => simp [charListLt] at h2
      | cons c cs => simp [charListLt]
  | cons a rest ih =>
    intro ys zs h1 h2
    cases ys with
    | nil => simp [charListLt] at h1
    | cons b bs =>
      cases zs with
      | nil => simp [charListLt] at h2
      | cons c cs =>
        by_cases hab : a.toNat < b.toNat
        · by_cases hbc : b.toNat < c.toNat
          · simp [charListLt]; omega
          · by_cases hcb : c.toNat < b.toNat
            · simp [charListLt, hbc, hcb] at h2
            · have hbc2 : b.toNat = c.toNat := by omega
              simp [charListLt]; omega
        · by_cases hba : b.toNat < a.toNat
          · simp [charListLt, hab, hba] at h1
          · have hab2 : a.toNat = b.toNat := by omega
            simp [charListLt, hab, hba] at h1
            by_cases hbc : b.toNat < c.toNat
            · simp [charListLt]; omega
            · by_cases hcb : c.toNat < b.toNat
              · simp [charListLt, hbc, hcb] at h2
              · simp [charListLt, hbc, hcb] at h2
                simp [charListLt, show ¬ a.toNat < c.toNat by omega,
                  show ¬ c.toNat < a.toNat by omega]
                exact ih bs cs h1 h2

lemma strLt_irrefl (s : String) : strLt s s = false := charListLt_irrefl s.data

lemma strLt_asymm {s t : String} (h : strLt s t = true) : strLt t s = false :=
  charListLt_asymm s.data t.data h

lemma strLt_connex {s t : String} (h1 : strLt s t = false)
    (h2 : strLt t s = false) : s = t :=
  String.ext (charListLt_connex s.data t.data h1 h2)

lemma strLt_trans {s t u : String} (h1 : strLt s t = true)
    (h2 : strLt t u = true) : strLt s u = true :=
  charListLt_trans s.data t.data u.data h1 h2

lemma legLE_total (x y : REntry) : (legLE x y || legLE y x) = true := by
  unfold legLE
  by_cases h1 : strLt x.state y.state = true
  · simp [h1]
  · by_cases h2 : strLt y.state x.state = true
    · simp [h2]
    · have hst : x.state = y.state :=
        strLt_connex (by simpa using h1) (by simpa using h2)
      by_cases h3 : strLt x.name y.name = true
      · simp [hst, h3]
      · by_cases h4 : strLt y.name x.name = true
        · simp [hst, h4]
        · have hn : x.name = y.name :=
            strLt_connex (by simpa using h3) (by simpa using h4)
          simp [hst, hn]

lemma legLE_trans {x y z : REntry} (h1 : legLE x y = true)
    (h2 : legLE y z = true) : legLE x z = true := by
  unfold legLE at h1 h2 ⊢
  rcases Bool.or_eq_true _ _ |>.mp h1 with ha | ha
  · rcases Bool.or_eq_true _ _ |>.mp h2 with hb | hb
    · simp [strLt_trans ha hb]
    · rcases Bool.and_eq_true _ _ |>.mp hb with ⟨hb1, -⟩
      have : y.state = z.state := beq_iff_eq.mp hb1
      simp [this ▸ ha]
  · rcases Bool.and_eq_true _ _ |>.mp ha with ⟨ha1, ha2⟩
    have hxy : x.state = y.state := beq_iff_eq.mp ha1
    rcases Bool.or_eq_true _ _ |>.mp h2 with hb | hb
    · simp [hxy ▸ hb]
    · rcases Bool.and_eq_true _ _ |>.mp hb with ⟨hb1, hb2⟩
      have hyz : y.state = z.state := beq_iff_eq.mp hb1
      have hst : x.state = z.state := hxy.trans hyz
      rcases Bool.or_eq_true _ _ |>.mp ha2 with hn1 | hn1
      · rcases Bool.or_eq_true _ _ |>.mp hb2 with hn2 | hn2
        · simp [hst, strLt_trans hn1 hn2]
        · have : y.name = z.name := beq_iff_eq.mp hn2
          simp [hst, this ▸ hn1]
      · have hxyn : x.name = y.name := beq_iff_eq.mp hn1
        rcases Bool.or_eq_true _ _ |>.mp hb2 with hn2 | hn2
        · simp [hst, hxyn ▸ hn2]
        · have hyzn : y.name = z.name := beq_iff_eq.mp hn2
          simp [hst, hxyn.trans hyzn]

lemma legLE_key_antisymm {x y : REntry} (h1 : legLE x y = true)
    (h2 : legLE y x = true) : x.state = y.state ∧ x.name = y.name := by
  unfold legLE at h1 h2
  have hst : x.state = y.state := by
    rcases Bool.or_eq_true _ _ |>.mp h1 with ha | ha
    · rcases Bool.or_eq_true _ _ |>.mp h2 with hb | hb
      · exact absurd hb (by simp [strLt_asymm ha])
      · exact (beq_iff_eq.mp (Bool.and_eq_true _ _ |>.mp hb).1).symm
    · exact beq_iff_eq.mp (Bool.and_eq_true _ _ |>.mp ha).1
  refine ⟨hst, ?_⟩
  rcases Bool.or_eq_true _ _ |>.mp h1 with ha | ha
  · exact absurd ha (by simp [hst, strLt_irrefl])
  · rcases Bool.or_eq_true _ _ |>.mp h2 with hb | hb
    · exact absurd hb (by simp [hst, strLt_irrefl])
    · have hn1 := (Bool.and_eq_true _ _ |>.mp ha).2
      have hn2 := (Bool.and_eq_true _ _ |>.mp hb).2
      rcases Bool.or_eq_true _ _ |>.mp hn1 with hc | hc
      · rcases Bool.or_eq_true _ _ |>.mp hn2 with hd | hd
        · exact absurd hd (by simp [strLt_asymm hc])
        · exact (beq_iff_eq.mp hd).symm
      · exact beq_iff_eq.mp hc

lemma stableInsert_perm (le : α → α → Bool) (x : α) (l : List α) :
    (stableInsert le x l).Perm (x :: l) := by
  induction l with
  | nil => exact List.Perm.refl _
  | cons y ys ih =>
    by_cases h : le x y = true
    · simp [stableInsert, h]
    · simp only [stableInsert, if_neg h]
      exact (ih.cons y).trans (List.Perm.swap x y ys)

lemma pySorted_perm (le : α → α → Bool) (l : List α) : (pySorted le l).Perm l := by
  induction l with
  | nil => exact List.Perm.refl _
  | cons x xs ih =>
    exact (stableInsert_perm le x (pySorted le xs)).trans (ih.cons x)

lemma pairwise_stableInsert (le : α → α → Bool)
    (htot : ∀ a b, (le a b || le b a) = true)
    (htrans : ∀ a b c, le a b = true → le b c = true → le a c = true)
    (x : α) (l : List α) (hl : List.Pairwise (fun a b => le a b = true) l) :
    List.Pairwise (fun a b => le a b = true) (stableInsert le x l) := by
  induction l with
  | nil => simp [stableInsert]
  | cons y ys ih =>
    rcases List.pairwise_cons.mp hl with ⟨hy, hys⟩
    by_cases h : le x y = true
    · simp only [stableInsert, if_pos h]
      refine List.pairwise_cons.mpr ⟨?_, hl⟩
      intro z hz
      rcases List.mem_cons.mp hz with rfl | hz
      · exact h
      · exact htrans x y z h (hy z hz)
    · simp only [stableInsert, if_neg h]
      refine List.pairwise_cons.mpr ⟨?_, ih hys⟩
      intro z hz
      have hz2 : z = x ∨ z ∈ ys := by
        have := (stableInsert_perm le x ys).mem_iff.mp hz
        simpa using this
      rcases hz2 with hz2 | hz2
      · rw [hz2]
        have hxy : le x y = false := by simpa using h
        have h2 := htot x y
        rw [hxy] at h2
        simpa using h2
      · exact hy z hz2

lemma pySorted_pairwise (le : α → α → Bool)
    (htot : ∀ a b, (le a b || le b a) = true)
    (htrans : ∀ a b c, le a b = true → le b c = true → le a c = true)
    (l : List α) :
    List.Pairwise (fun a b => le a b = true) (pySorted le l) := by
  induction l with
  | nil => simp [pySorted]
  | cons x xs ih => exact pairwise_stableInsert le htot htrans x (pySorted le xs) ih

lemma sorted_unique_by_key :
    ∀ (l1 l2 : List REntry),
      List.Pairwise (fun a b => legLE a b = true) l1 →
      List.Pairwise (fun a b => legLE a b = true) l2 →
      l1.Perm l2 →
      (l1.map (fun r => (r.state, r.name))).Nodup →
      l1 = l2 := by
  intro l1
  induction l1 with
  | nil =>
    intro l2 h1 h2 hp hnd
    exact hp.nil_eq
  | cons x xs ih =>
    intro l2 h1 h2 hp hnd
    cases l2 with
    | nil =>
      have := hp.length_eq
      simp at this
    | cons y ys =>
      by_cases hxy : x = y
      · subst hxy
        have hp2 : xs.Perm ys := hp.cons_inv
        exact congrArg (List.cons x)
          (ih ys (List.pairwise_cons.mp h1).2 (List.pairwise_cons.mp h2).2 hp2
            (List.nodup_cons.mp hnd).2)
      · exfalso
        have hyx : y ∈ x :: xs := hp.mem_iff.mpr (List.mem_cons_self y ys)
        have hy_in_xs : y ∈ xs := by
          rcases List.mem_cons.mp hyx with h | h
          · exact absurd h.symm hxy
          · exact h
        have hx_in : x ∈ y :: ys := hp.mem_iff.mp (List.mem_cons_self x xs)
        have hx_in_ys : x ∈ ys := by
          rcases List.mem_cons.mp hx_in with h | h
          · exact absurd h hxy
          · exact h
        have hle1 : legLE x y = true := (List.pairwise_cons.mp h1).1 y hy_in_xs
        have hle2 : legLE y x = true := (List.pairwise_cons.mp h2).1 x hx_in_ys
        have hkey := legLE_key_antisymm hle1 hle2
        have hmem : (y.state, y.name) ∈ xs.map (fun r => (r.state, r.name)) :=
          List.mem_map_of_mem _ hy_in_xs
        have hx_notin := (List.nodup_cons.mp hnd).1
        exact hx_notin (by
          show (x.state, x.name) ∈ List.map (fun r => (r.state, r.name)) xs
          rw [hkey.1, hkey.2]
          exact hmem)

/-- Claim C9.  Corrected: the listing is sorted ascending by the pair of
state and name under the codepoint (case-sensitive) string order and is a
permutation of the per-record entries; it is independent of the supply
order only when no two entries share the same state and name pair (the
stable sort otherwise keeps the input order of equal keys, as the
counterexample shows). -/
theorem claim_C9_sort_order :
    (∀ datas : List RData,
      List.Pairwise (fun a b => legLE a b = true)
        ((consolidate_results datas).legislators))
    ∧ (∀ datas : List RData,
        ((consolidate_results datas).legislators).Perm (datas.map recordEntry))
    ∧ (∀ l1 l2 : List REntry, l1.Perm l2 →
        (l1.map (fun r => (r.state, r.name))).Nodup →
        pySorted legLE l1 = pySorted legLE l2) := by
  refine ⟨?_, ?_, ?_⟩
  · intro datas
    rw [consolidate_legislators]
    exact pySorted_pairwise legLE legLE_total (fun a b c => legLE_trans) _
  · intro datas
    rw [consolidate_legislators]
    exact pySorted_perm legLE _
  · intro l1 l2 hp hnd
    refine sorted_unique_by_key _ _
      (pySorted_pairwise legLE legLE_total (fun a b c => legLE_trans) l1)
      (pySorted_pairwise legLE legLE_total (fun a b c => legLE_trans) l2)
      (((pySorted_perm legLE l1).trans hp).trans (pySorted_perm legLE l2).symm)
      ?_
    exact (((pySorted_perm legLE l1).map (fun r => (r.state, r.name))).nodup_iff).mpr hnd

def emptyTokens : TokensUsed := TokensUsed.fields Option.none Option.none

/-- Two records sharing the state and name key but differing in content. -/
def dupA : RData :=
  { name := some "Ann", state := some "ca", issues := [],
    donors_top_companies := [], donors_top_industries := [],
    donors_ideological := [], donors_individual := [],
    error := PyVal.none, last_updated := Option.none, tokens := emptyTokens }

def dupB : RData := { dupA with issues := [PyVal.none] }

/-- Claim C9 counterexample: the same two records supplied in the two
orders give different listings, so the ordering is not independent of the
input order. -/
theorem claim_C9_counterexample :
    [dupA, dupB].Perm [dupB, dupA]
    ∧ (consolidate_results [dupA, dupB]).legislators
        = [recordEntry dupA, recordEntry dupB]
    ∧ (consolidate_results [dupB, dupA]).legislators
        = [recordEntry dupB, recordEntry dupA]
    ∧ (consolidate_results [dupA, dupB]).legislators
        ≠ (consolidate_results [dupB, dupA]).legislators := by
  refine ⟨List.Perm.swap dupB dupA [], rfl, rfl, ?_⟩
  intro h
  have h2 : ([recordEntry dupA, recordEntry dupB] : List REntry)
      = [recordEntry dupB, recordEntry dupA] := h
  have h3 : (recordEntry dupA).issues_count = (recordEntry dupB).issues_count := by
    injection h2 with hh _
    exact congrArg REntry.issues_count hh
  exact absurd h3 (by decide)

def witnessEntryA : REntry :=
  { name := "A", state := "aa", issues_count := 0, donors_count := 0,
    has_error := false, last_updated := "", cost := 0 }

def witnessEntryB : REntry := { witnessEntryA with state := "bb" }

/-- Claim C9 witness: with distinct keys the two supply orders sort the
same. -/
theorem claim_C9_witness :
    pySorted legLE [witnessEntryA, witnessEntryB]
      = pySorted legLE [witnessEntryB, witnessEntryA] :=
  claim_C9_sort_order.2.2 [witnessEntryA, witnessEntryB]
    [witnessEntryB, witnessEntryA]
    (List.Perm.swap witnessEntryB witnessEntryA []) (by decide)

end PeopleResearch
